import Mathlib

/-!
Verification development for the beta-intelligence listing/query pipeline.

Each definition below is a shallow embedding of a concrete piece of the
repository's source:

* `goQueryInt`, `resolveSortDirection`, `validSortFields`, `buildOrderBy`,
  `goLastPage`, `professionsMeta` embed the Go handler
  `GetProfessions` (server/internal/interfaces/http/handlers/profession_handler.go).
* `pagesComponent` embeds the `pages` computation of the React
  `Pagination` component (components/pagination.tsx).
* `parseSearchParamsModel` and `buildFetchParams` embed `parseSearchParams`
  and the request-parameter construction of `fetchEvents` (the events page
  module).
* `setHoursLocal`, `formatWithBrasiliaTz`, `applyFilterFromParam`,
  `applyFilterToParam` embed the date-range compilation of
  `applyCurrentFilter` (pesquisas/pesquisas-table.tsx) and the
  `setHours` normalization of `updateFilters` (events/date-filter.tsx).
* `fetchSchedule`, `accumulatePages`, `exportFetchPhase`, `exportDecision`
  embed the bulk-export orchestration of `handleExportAll`
  (events/events-table.tsx).
* `escQuotes`, `csvEscapeChars`, `resolvePath`, `renderValue`, `csvRowCells`
  embed the CSV assembly shared by `handleExport`, `handleExportCurrentPage`
  and `handleExportAll` (events/events-table.tsx).

Machine integers are modelled as `Int`/`Nat`; Go's integer division on
nonnegative operands and Lean's `Int` division both truncate toward zero,
and division by zero (a Go runtime panic) is modelled by `Option`.
-/

/-! ### Parameter parsing (profession_handler.go, lines 18-21)

`page, _ := strconv.Atoi(c.Query("page", "1"))`:
`c.Query` substitutes the default string only when the key is absent;
`strconv.Atoi` returns 0 together with an error on non-numeric input, and
the handler discards the error. -/

/-- A raw query parameter: either absent from the query string or present
with a raw string value. -/
inductive RawParam where
  | missing
  | present (s : String)
deriving DecidableEq

/-- Digits-to-number accumulation used by the `strconv.Atoi` model. -/
def parseDigitsAux : List Char → Nat → Option Nat
  | [], acc => some acc
  | c :: cs, acc =>
      if c.isDigit then parseDigitsAux cs (acc * 10 + (c.toNat - 48))
      else none

/-- A nonempty all-digit character list read as a number, else `none`. -/
def parseDigits : List Char → Option Nat
  | [] => none
  | cs => parseDigitsAux cs 0

/-- Model of Go `strconv.Atoi`: optional sign followed by at least one
decimal digit; `none` models the error return (64-bit range errors are not
modelled). -/
def atoi (s : String) : Option Int :=
  match s.data with
  | '+' :: rest => (parseDigits rest).map (fun n => (n : Int))
  | '-' :: rest => (parseDigits rest).map (fun n => -(n : Int))
  | rest => (parseDigits rest).map (fun n => (n : Int))

/-- `strconv.Atoi(c.Query(key, defaultVal))` with the error discarded:
a missing key parses the default string, a present key parses its raw
value, and a parse failure yields Go's zero value. -/
def goQueryInt (p : RawParam) (defaultVal : String) : Int :=
  match p with
  | .missing => (atoi defaultVal).getD 0
  | .present s => (atoi s).getD 0

/-! ### Sort resolution (profession_handler.go, lines 24-44) -/

/-- The `validSortFields` map of the handler, as an association list. -/
def validSortFields : List (String × String) :=
  [("profession_id", "profession_id"),
   ("created_at", "created_at"),
   ("profession_name", "profession_name"),
   ("meta_pixel", "meta_pixel"),
   ("meta_token", "meta_token")]

/-- `validSortFields[sortBy]` lookup. -/
def lookupSortField (sortBy : String) : Option String :=
  (validSortFields.find? (fun p => p.1 = sortBy)).map (fun p => p.2)

/-- `if sortDirection != "asc" && sortDirection != "desc" { sortDirection = "desc" }`. -/
def resolveSortDirection (d : String) : String :=
  if d ≠ "asc" ∧ d ≠ "desc" then "desc" else d

/-- The `orderBy` string: the allow-listed field with the validated
direction, or the literal default `"created_at desc"`. -/
def buildOrderBy (sortBy sortDirection : String) : String :=
  match lookupSortField sortBy with
  | some f => f ++ " " ++ resolveSortDirection sortDirection
  | none => "created_at desc"

/-! ### Pagination metadata -/

/-- `last_page: (total + int64(limit) - 1) / int64(limit)` from the Go
handler; Go integer division truncates toward zero (`Int.tdiv`), and
division by zero (a Go runtime panic) is `none`. -/
def goLastPage (total limit : Int) : Option Int :=
  if limit = 0 then none else some ((total + limit - 1).tdiv limit)

/-- `const pages = Math.ceil(totalCount / perPage) || 1` from the React
`Pagination` component; for naturals with `perPage > 0`,
`Math.ceil(a / b) = (a + b - 1) / b` exactly. -/
def pagesComponent (totalCount perPage : Nat) : Nat :=
  let pages := (totalCount + perPage - 1) / perPage
  if pages = 0 then 1 else pages

/-- The spec's formula, stated in its own words for comparison:
`lastPage = max(1, ceil(total/limit))`. -/
def claimedLastPage (total limit : Nat) : Nat :=
  max 1 ((total + limit - 1) / limit)

/-- The `meta` object returned by `GetProfessions`. `sortBy` carries the
raw requested value (the handler never reassigns it), `sortDirection` the
validated one. `validSortFieldsKeys` models `getKeys(validSortFields)`;
Go map iteration order is unspecified, the declaration order is used here
and no theorem depends on it. -/
structure ProfessionsMeta where
  total : Int
  page : Int
  limit : Int
  lastPage : Option Int
  sortBy : String
  sortDirection : String
  validSortFieldsKeys : List String
deriving DecidableEq

/-- Construction of the response `meta` from the parsed query values. -/
def professionsMeta (total page limit : Int) (sortBy sortDirection : String) :
    ProfessionsMeta :=
  { total := total
    page := page
    limit := limit
    lastPage := goLastPage total limit
    sortBy := sortBy
    sortDirection := resolveSortDirection sortDirection
    validSortFieldsKeys := validSortFields.map (fun p => p.1) }

/-! ### Advanced-filter parsing (events page: `parseSearchParams`, `fetchEvents`)

`JSON.parse` of a filter parameter and `JSON.stringify` of the parsed
array are external library calls; their outcomes are modelled abstractly:
a parse either throws (`malformed`), yields a non-array value
(`nonArray`), or yields an array of filter entries. A filter entry's
`value` may be absent (`none`), matching the JS truthiness test
`f.value && f.value.trim() !== ''`. -/

/-- One entry of an `advanced_filters` / legacy `filters` JSON array. -/
structure AdvFilter where
  field : String
  op : String
  value : Option String
deriving DecidableEq

/-- Outcome of `JSON.parse` on a filter parameter string. -/
inductive ParsedJson where
  | malformed
  | nonArray
  | arr (fs : List AdvFilter)
deriving DecidableEq

/-- The JS test `f.value && f.value.trim() !== ''`: an absent or empty
value is falsy, and an all-whitespace value fails the trim test. -/
def hasRealValue (f : AdvFilter) : Bool :=
  match f.value with
  | none => false
  | some s => s ≠ "" && s.trim ≠ ""

/-- `Array.isArray(parsed) && parsed.length > 0 && parsed.some(f => f.value && f.value.trim() !== '')`
from `fetchEvents`. -/
def advArrayUsable (p : ParsedJson) : Bool :=
  match p with
  | .arr fs => fs.length > 0 && fs.any hasRealValue
  | _ => false

/-- `parseSearchParams` (events page module). Each argument is the
presence and `JSON.parse` outcome of one URL parameter (`none` = the
parameter is absent or empty, which is falsy in the JS guard).

Control flow of the source: the legacy `filters` parameter is parsed
first; if it throws, the surrounding catch returns the current (empty)
list without ever looking at `advanced_filters`. Only when the legacy
result is still empty is `advanced_filters` parsed; if that throws, the
catch likewise returns the empty list. -/
def tryAdvancedFilters (advP : Option ParsedJson) : List AdvFilter :=
  match advP with
  | none => []
  | some .malformed => []
  | some .nonArray => []
  | some (.arr fs) => fs

/-- The full `parseSearchParams` result. -/
def parseSearchParamsModel (filtersP advP : Option ParsedJson) : List AdvFilter :=
  match filtersP with
  | some .malformed => []
  | some (.arr fs) => if fs.isEmpty then tryAdvancedFilters advP else fs
  | some .nonArray => tryAdvancedFilters advP
  | none => tryAdvancedFilters advP

/-! ### API request construction (`fetchEvents`) -/

/-- The filter parameter keys checked by `fetchEvents` (its `hasFilters`
test and its `isFilterParam` list contain the same nine keys). -/
def filterParamKeys : List String :=
  ["advanced_filters", "filter_condition", "profession_id", "funnel_id",
   "time_from", "time_to", "filters", "from", "to"]

/-- `URLSearchParams.set`: replace the value under an existing key,
otherwise append the pair. -/
def setParam (ps : List (String × String)) (k v : String) : List (String × String) :=
  if ps.any (fun p => p.1 = k) then
    ps.map (fun p => if p.1 = k then (k, v) else p)
  else ps ++ [(k, v)]

/-- `URLSearchParams.has`. -/
def hasKey (entries : List (String × String)) (k : String) : Bool :=
  entries.any (fun e => e.1 = k)

/-- `URLSearchParams.get`. -/
def getParam (entries : List (String × String)) (k : String) : Option String :=
  (entries.find? (fun e => e.1 = k)).map (fun e => e.2)

/-- The minimal parameters `fetchEvents` always sets first: `page`,
`limit`, then `sortBy`/`sortDirection` when a sort column (and direction)
is configured. -/
def baseParams (page limit : Nat) (sortCol sortDir : Option String) :
    List (String × String) :=
  let ps : List (String × String) :=
    [("page", toString page), ("limit", toString limit)]
  match sortCol with
  | none => ps
  | some c =>
      match sortDir with
      | none => ps ++ [("sortBy", c)]
      | some d => ps ++ [("sortBy", c), ("sortDirection", d)]

/-- The `hasFilters` test of `fetchEvents`: any of the nine filter keys
present in the page URL. -/
def hasFilterParams (entries : List (String × String)) : Bool :=
  filterParamKeys.any (fun k => hasKey entries k)

/-- Body of the copy loop of `fetchEvents` for one URL entry `kv`:
pagination/sort keys are skipped; `advanced_filters`/`filters` are
included only when they parse to a non-empty array with at least one
non-blank value (re-stringified), with `filter_condition` carried along
for `advanced_filters`; other filter keys are included only when
non-blank; non-filter keys are copied as-is. -/
def copyEntry (parse : String → ParsedJson) (stringify : List AdvFilter → String)
    (urlEntries : List (String × String)) (ps : List (String × String))
    (kv : String × String) : List (String × String) :=
  if kv.1 = "page" ∨ kv.1 = "limit" ∨ kv.1 = "sortBy" ∨ kv.1 = "sortDirection" then
    ps
  else if kv.1 ∈ filterParamKeys then
    if kv.1 = "advanced_filters" ∨ kv.1 = "filters" then
      match parse kv.2 with
      | .arr fs =>
          if fs.length > 0 && fs.any hasRealValue then
            let ps' := setParam ps kv.1 (stringify fs)
            if kv.1 = "advanced_filters" then
              match getParam urlEntries ("filter_condition") with
              | some fc => if fc ≠ "" then setParam ps' ("filter_condition") fc else ps'
              | none => ps'
            else ps'
          else ps
      | .nonArray => ps
      | .malformed => ps
    else if kv.2 ≠ "" && kv.2.trim ≠ "" then setParam ps kv.1 kv.2 else ps
  else setParam ps kv.1 kv.2

/-- The request parameters produced by `fetchEvents` (the
session-storage "filter clearing" branch is the boolean `clearing`; the
network call itself is outside the model). -/
def buildFetchParams (parse : String → ParsedJson) (stringify : List AdvFilter → String)
    (clearing : Bool) (page limit : Nat) (sortCol sortDir : Option String)
    (urlEntries : List (String × String)) : List (String × String) :=
  let ps := baseParams page limit sortCol sortDir
  if clearing then ps
  else if ¬ hasFilterParams urlEntries then ps
  else urlEntries.foldl (copyEntry parse stringify urlEntries) ps

/-! ### Date-range compilation (`applyCurrentFilter`, `updateFilters`)

A JS `Date` is its epoch-milliseconds instant (`Int`). The machine's
local timezone is a fixed offset `tz` in minutes east of UTC (DST is not
modelled; Brazil has not observed DST since 2019 and its offset is -180).
`date.setHours(h, m, s, ms)` replaces the time of day of the date's
*local* calendar day. `toISOString()` renders the instant's UTC wall
clock, and `formatDateWithBrasiliaTimezone` then textually replaces the
trailing `Z` with `-03:00`, so the emitted string carries the UTC
wall-clock digits relabelled with the fixed Brazilian offset. A wall
clock is represented on the same millisecond scale: the wall-clock
reading of instant `d` at offset `tz` is `d + tz * 60000`. -/

/-- `date.setHours(h, m, s, ms)` on instant `d` for a machine at fixed
offset `tz` minutes: keep the local calendar day, replace the time of
day. `emod` (floor remainder) gives the correct day floor also before
1970. -/
def setHoursLocal (tz d : Int) (h m s ms : Int) : Int :=
  let localMs := d + tz * 60000
  let dayStart := localMs - localMs % 86400000
  dayStart + h * 3600000 + m * 60000 + s * 1000 + ms - tz * 60000

/-- A timestamp string with an explicit UTC offset: the wall-clock digits
(as milliseconds on the day scale) plus the offset they are labelled
with. -/
structure OffsetStamp where
  wallClockMs : Int
  offsetMin : Int
deriving DecidableEq

/-- `formatDateWithBrasiliaTimezone(date) = date.toISOString().replace('Z', '-03:00')`
(pesquisas-table.tsx): the UTC wall clock of the instant, relabelled with
the Brazilian offset without shifting the digits. -/
def formatWithBrasiliaTz (d : Int) : OffsetStamp :=
  { wallClockMs := d, offsetMin := -180 }

/-- The `_from` URL parameter emitted by `applyCurrentFilter`: the picked
`from` date is formatted directly, with no time-of-day normalization. -/
def applyFilterFromParam (pickedFrom : Int) : OffsetStamp :=
  formatWithBrasiliaTz pickedFrom

/-- The `_to` URL parameter emitted by `applyCurrentFilter`:
`toDate.setHours(23, 59, 59, 999)` in the machine's local timezone `tz`,
then formatted. (`updateFilters` in events/date-filter.tsx applies the
same local `setHours(23, 59, 59, 999)` / `setHours(0, 0, 0, 0)`
normalization to its range.) -/
def applyFilterToParam (tz pickedTo : Int) : OffsetStamp :=
  formatWithBrasiliaTz (setHoursLocal tz pickedTo 23 59 59 999)

/-- The calendar picker's value for a chosen day on a machine at offset
`tz`: the instant of local midnight of that day. `dayDigits` is the
wall-clock millisecond reading of the day's 00:00:00.000. -/
def pickerMidnight (tz dayDigits : Int) : Int :=
  dayDigits - tz * 60000

/-! ### Bulk export (`handleExportAll`, events/events-table.tsx) -/

/-- The fixed page size of the paginated export fallback. -/
def exportPageSize : Nat := 1000

/-- `const totalPages = Math.ceil(totalRegistros / pageSize)`. -/
def exportTotalPages (total : Nat) : Nat :=
  (total + exportPageSize - 1) / exportPageSize

/-- The pages requested by the `for (let page = 1; page <= totalPages; page++)`
loop, in issue order. -/
def fetchSchedule (total : Nat) : List Nat :=
  (List.range (exportTotalPages total)).map (fun i => i + 1)

/-- `allEvents = [...allEvents, ...pageEvents]` folded over the page loop,
starting from the empty accumulator. -/
def accumulatePages {α : Type} (fetchPage : Nat → List α) (total : Nat) : List α :=
  (fetchSchedule total).foldl (fun acc p => acc ++ fetchPage p) []

/-- The fetch phase of `handleExportAll`. The direct `export=true` fetch
either yields a row list or raises a transport error (`Except`). If it
under-returns (`allEvents.length < totalRegistros`) the accumulator is
reset to `[]` and the paginated loop runs; if it throws, the catch block
runs the same paginated loop on the still-empty accumulator. The returned
flag is `usedPagination`. -/
def exportFetchPhase {α : Type} (direct : Except Unit (List α))
    (fetchPage : Nat → List α) (total : Nat) : List α × Bool :=
  match direct with
  | .ok evs =>
      if evs.length < total then (accumulatePages fetchPage total, true)
      else (evs, false)
  | .error _ => (accumulatePages fetchPage total, true)

/-- What `handleExportAll` does right after accumulation: an empty result
aborts with an alert (`'Não há eventos para exportar'`); a non-empty
result smaller than the expected total prompts the user to confirm a
partial export; otherwise processing proceeds. -/
inductive ExportDecision where
  | abortEmpty
  | confirmPartial
  | proceed
deriving DecidableEq

/-- The two guards at the end of the fetch phase, in source order. -/
def exportDecision {α : Type} (accumulated : List α) (total : Nat) : ExportDecision :=
  if accumulated.length = 0 then .abortEmpty
  else if accumulated.length < total then .confirmPartial
  else .proceed

/-! ### CSV assembly (`handleExport` / `handleExportCurrentPage` / `handleExportAll`)

A record value is a JS value: `undefined`, `null`, a primitive whose
`String(·)` rendering is carried directly, or an object with named
fields. A column accessor is its dot-split path. The three export paths
share the same per-cell logic, embedded once below. -/

/-- A JS value as seen by the export code. -/
inductive JSVal where
  | undefined
  | jsNull
  | prim (s : String)
  | obj (fields : List (String × JSVal))

/-- `currentValue[k]`: object field access (absent field gives
`undefined`); indexing a primitive with a column key gives `undefined`.
`null`/`undefined` are never indexed — the loop guard breaks first. -/
def jsIndex (v : JSVal) (k : String) : JSVal :=
  match v with
  | .obj fs =>
      match fs.find? (fun f => f.1 = k) with
      | some f => f.2
      | none => .undefined
  | _ => .undefined

/-- The nested-accessor loop: walk the path, stopping as soon as the
current value is `null` or `undefined` (the `value = '-'` written inside
the loop's break is dead — the assignment after the loop overwrites it). -/
def resolvePath (v : JSVal) : List String → JSVal
  | [] => v
  | k :: ks =>
      match v with
      | .undefined => .undefined
      | .jsNull => .jsNull
      | v' => resolvePath (jsIndex v' k) ks

/-- `String(·)` on the resolved value. -/
def jsToString : JSVal → String
  | .undefined => "undefined"
  | .jsNull => "null"
  | .prim s => s
  | .obj _ => "[object Object]"

/-- `value = currentValue !== undefined ? String(currentValue) : '-'`
(identical in the direct-property branch): only `undefined` becomes the
dash; `null` becomes the string `"null"`. -/
def renderValue (v : JSVal) : String :=
  match v with
  | .undefined => "-"
  | v' => jsToString v'

/-- A visible column: its header and its dot-split accessor path. -/
structure CsvColumn where
  header : String
  path : List String
deriving DecidableEq

/-- The raw cell text for one column of one record, including the
`event_time` date reformatting (the `formatDateToBRT` collaborator is the
`dateFmt` parameter). -/
def cellRaw (dateFmt : String → String) (event : JSVal) (col : CsvColumn) : String :=
  let v := renderValue (resolvePath event col.path)
  if col.path = [("event_time")] ∧ v ≠ "" ∧ v ≠ "-" then dateFmt v else v

/-- `value.replace(/"/g, '""')`: double every double-quote character. -/
def escQuotes : List Char → List Char
  | [] => []
  | c :: cs => if c = '\"' then '\"' :: '\"' :: escQuotes cs else c :: escQuotes cs

/-- One emitted CSV field: the escaped value enclosed in double quotes. -/
def csvEscapeChars (v : List Char) : List Char :=
  '\"' :: (escQuotes v ++ ['\"'])

/-- `"${value.replace(/"/g, '""')}"` as a string. -/
def csvEscape (s : String) : String :=
  String.mk (csvEscapeChars s.data)

/-- The list of emitted fields of one data row (before the `','` join). -/
def csvRowCells (dateFmt : String → String) (cols : List CsvColumn) (event : JSVal) :
    List String :=
  cols.map (fun col => csvEscape (cellRaw dateFmt event col))

/-- `Array.prototype.join(',')` on the emitted fields. -/
def joinComma : List String → String
  | [] => ""
  | [v] => v
  | v :: vs => v ++ "," ++ joinComma vs

/-- One data row: the fields joined with `','`. -/
def csvRow (dateFmt : String → String) (cols : List CsvColumn) (event : JSVal) : String :=
  joinComma (csvRowCells dateFmt cols event)

/-- The same comma join on character lists (for reasoning about the
row's character sequence). -/
def joinCharsComma : List (List Char) → List Char
  | [] => []
  | [v] => v
  | v :: vs => v ++ ',' :: joinCharsComma vs

/-! A reading direction for well-formedness: a parser for a quoted CSV
field (and for a whole row of quoted fields) that recovers exactly the
raw text the export wrote. It exists only to state that the escaping is
unambiguous; it is not part of the repository. -/

/-- Scan the interior of a quoted field: `""` is a literal quote, a lone
`"` closes the field. -/
def scanQuoted : List Char → Option (List Char × List Char)
  | [] => none
  | c :: cs =>
      if c = '\"' then
        match cs with
        | c2 :: cs2 =>
            if c2 = '\"' then (scanQuoted cs2).map (fun r => ('\"' :: r.1, r.2))
            else some ([], c2 :: cs2)
        | [] => some ([], [])
      else
        (scanQuoted cs).map (fun r => (c :: r.1, r.2))

/-- Parse one field: an opening quote, then the scanned interior. -/
def parseQuotedField : List Char → Option (List Char × List Char)
  | '\"' :: cs => scanQuoted cs
  | _ => none

/-- Parse `fuel`-bounded comma-separated quoted fields to the end of the
row. -/
def parseRowFields : Nat → List Char → Option (List (List Char))
  | 0, _ => none
  | fuel + 1, cs =>
      match parseQuotedField cs with
      | none => none
      | some (v, rest) =>
          match rest with
          | [] => some [v]
          | ',' :: rest' => (parseRowFields fuel rest').map (fun vs => v :: vs)
          | _ => none

/-! ## Theorems -/

/-- The validated sort direction is always one of the two accepted
literals. -/
theorem resolveSortDirection_cases (d : String) :
    resolveSortDirection d = "asc" ∨ resolveSortDirection d = "desc" := by
  unfold resolveSortDirection
  split
  · exact Or.inr rfl
  · rename_i h
    rcases not_and_or.mp h with h' | h'
    · exact Or.inl (not_not.mp h')
    · exact Or.inr (not_not.mp h')

/-- C1 (counterexample): the claim fails on the server handler's
metadata. At `total = 0, limit = 10` the handler's `last_page` is `0`,
not the claimed `max(1, ceil(0/10)) = 1`. -/
theorem c1_lastPage_counterexample :
    goLastPage 0 10 = some 0 ∧ claimedLastPage 0 10 = 1 ∧
    goLastPage 0 10 ≠ some ((claimedLastPage 0 10 : Nat) : Int) := by decide

/-- C1 (amended): for `total ≥ 0` and `limit ≥ 1`, the client
`Pagination` component's page count equals `max(1, ceil(total/limit))`
(so `25, 10 ↦ 3` and `0, 10 ↦ 1`); the server handler's `last_page`
equals `ceil(total/limit)` with no minimum-1 clamp, so it agrees with
that formula exactly when `total ≥ 1` and yields `0` when `total = 0`. -/
theorem c1_lastPage_amended (total limit : Nat) (h : 1 ≤ limit) :
    pagesComponent total limit = claimedLastPage total limit ∧
    (1 ≤ total →
      goLastPage (total : Int) (limit : Int) = some ((claimedLastPage total limit : Nat) : Int)) ∧
    goLastPage 0 (limit : Int) = some 0 := by
  have hlim : (1 : Int) ≤ (limit : Int) := by exact_mod_cast h
  refine ⟨?_, ?_, ?_⟩
  · simp only [pagesComponent, claimedLastPage]
    generalize (total + limit - 1) / limit = x
    split <;> omega
  · intro ht
    unfold goLastPage
    rw [if_neg (by omega)]
    have hcast : ((total : Int) + (limit : Int) - 1) = (((total + limit - 1 : Nat) : Nat) : Int) := by
      omega
    rw [hcast, ← Int.ofNat_tdiv]
    have hge : 1 ≤ (total + limit - 1) / limit :=
      (Nat.le_div_iff_mul_le (by omega)).mpr (by omega)
    have : claimedLastPage total limit = (total + limit - 1) / limit := by
      unfold claimedLastPage; omega
    rw [this]
  · unfold goLastPage
    rw [if_neg (by omega)]
    have : ((0 : Int) + (limit : Int) - 1).tdiv (limit : Int) = 0 := by
      rw [Int.tdiv_eq_ediv (by omega) (by omega)]
      exact Int.ediv_eq_zero_of_lt (by omega) (by omega)
    rw [this]

/-- C1 (witness): the amended theorem at the claim's own example inputs
`total = 25, limit = 10` (and `total = 0` through the third conjunct). -/
theorem c1_lastPage_amended_witness :
    1 ≤ 10 ∧
    (pagesComponent 25 10 = claimedLastPage 25 10 ∧
      (1 ≤ 25 →
        goLastPage ((25 : Nat) : Int) ((10 : Nat) : Int) = some ((claimedLastPage 25 10 : Nat) : Int)) ∧
      goLastPage 0 ((10 : Nat) : Int) = some 0) :=
  ⟨by decide, c1_lastPage_amended 25 10 (by decide)⟩

/-- C2: whatever `sortBy` and `sortDirection` the client supplies, the
`orderBy` expression handed to the data layer is an allow-listed backend
field followed by a validated direction — an unknown `sortBy` is replaced
by the default `created_at desc`, never passed through raw. -/
theorem c2_orderBy_allowListed (sortBy sortDirection : String) :
    ∃ f d, f ∈ validSortFields.map (fun p => p.2) ∧ (d = "asc" ∨ d = "desc") ∧
      buildOrderBy sortBy sortDirection = f ++ " " ++ d := by
  cases h : lookupSortField sortBy with
  | some f =>
      have hfind : ∃ p, validSortFields.find? (fun p => p.1 = sortBy) = some p ∧ p.2 = f := by
        unfold lookupSortField at h
        cases hf : validSortFields.find? (fun p => p.1 = sortBy) with
        | none => rw [hf] at h; simp at h
        | some p => rw [hf] at h; simp at h; exact ⟨p, rfl, h⟩
      obtain ⟨p, hp, hpf⟩ := hfind
      refine ⟨f, resolveSortDirection sortDirection, ?_, resolveSortDirection_cases sortDirection, ?_⟩
      · have hmem : p ∈ validSortFields := List.mem_of_find?_eq_some hp
        exact hpf ▸ List.mem_map_of_mem (fun p => p.2) hmem
      · simp [buildOrderBy, h]
  | none =>
      refine ⟨"created_at", "desc", by decide, Or.inr rfl, ?_⟩
      simp [buildOrderBy, h]

/-- C3 (counterexample): for the out-of-allow-list request
`sortBy = "bogus"`, the order-by falls back to the default field
`created_at`, but the response metadata's `sort_by` still reports the raw
requested `"bogus"`, not the substituted default. -/
theorem c3_metaSortBy_counterexample :
    (professionsMeta 25 1 10 ("bogus") ("asc")).sortBy = "bogus" ∧
    buildOrderBy ("bogus") ("asc") = "created_at desc" ∧
    (professionsMeta 25 1 10 ("bogus") ("asc")).sortBy ≠ "created_at" := by decide

/-- C3 (amended): the response metadata's `sort_by` always echoes the
requested `sortBy` unchanged — even when it is outside the allow-list and
the order-by expression was built from the default `created_at desc`
instead. The resolved field is not reported back. -/
theorem c3_metaSortBy_amended (total page limit : Int) (sortBy sortDirection : String) :
    (professionsMeta total page limit sortBy sortDirection).sortBy = sortBy ∧
    (lookupSortField sortBy = none →
      buildOrderBy sortBy sortDirection = "created_at desc") := by
  refine ⟨rfl, fun h => ?_⟩
  simp [buildOrderBy, h]

/-- C3 (witness): the amended theorem at the concrete unknown field
`"nope"`, with the inner hypothesis discharged by evaluation. -/
theorem c3_metaSortBy_amended_witness :
    (professionsMeta 0 1 10 ("nope") ("desc")).sortBy = "nope" ∧
    buildOrderBy ("nope") ("desc") = "created_at desc" :=
  ⟨(c3_metaSortBy_amended 0 1 10 ("nope") ("desc")).1,
   (c3_metaSortBy_amended 0 1 10 ("nope") ("desc")).2 (by decide)⟩

/-- C4: evaluation of the handler's parameter handling at the failing
input. A missing `page`/`limit` does default to 1/10, but a present
non-numeric `limit` (`?limit=abc`) parses to Go's zero value because the
`strconv.Atoi` error is discarded, and the subsequent
`(total + limit - 1) / limit` is then a division by zero — a runtime
panic (`none`), not the claimed fallback to 10. -/
theorem c4_nonNumeric_limit_divByZero :
    goQueryInt RawParam.missing ("1") = 1 ∧
    goQueryInt RawParam.missing ("10") = 10 ∧
    goQueryInt (RawParam.present ("abc")) ("10") = 0 ∧
    goLastPage 25 (goQueryInt (RawParam.present ("abc")) ("10")) = none := by decide

/-- C5 (counterexample): with both parameters present and both parsing to
valid non-empty arrays, `parseSearchParams` returns the legacy `filters`
array, not the `advanced_filters` one — the legacy parameter takes
precedence, contrary to the claim. -/
theorem c5_precedence_counterexample :
    parseSearchParamsModel
        (some (ParsedJson.arr [⟨"profession_id", "equals", some "1"⟩]))
        (some (ParsedJson.arr [⟨"funnel_id", "equals", some "2"⟩]))
      = [⟨"profession_id", "equals", some "1"⟩] ∧
    parseSearchParamsModel
        (some (ParsedJson.arr [⟨"profession_id", "equals", some "1"⟩]))
        (some (ParsedJson.arr [⟨"funnel_id", "equals", some "2"⟩]))
      ≠ [⟨"funnel_id", "equals", some "2"⟩] := by decide

/-- C5 (amended): when both parameters are present and both parse to
valid non-empty arrays, the legacy `filters` parameter is the one used;
`advanced_filters` is consulted only when `filters` is absent or parses
to an empty (or non-array) value, and not at all when `filters` is
malformed JSON, which aborts parsing with the empty result. -/
theorem c5_legacy_precedence_amended (fs gs : List AdvFilter) (h : fs ≠ []) :
    parseSearchParamsModel (some (ParsedJson.arr fs)) (some (ParsedJson.arr gs)) = fs ∧
    parseSearchParamsModel none (some (ParsedJson.arr gs)) = gs ∧
    parseSearchParamsModel (some ParsedJson.malformed) (some (ParsedJson.arr gs)) = [] := by
  refine ⟨?_, rfl, rfl⟩
  unfold parseSearchParamsModel
  simp [List.isEmpty_iff, h]

/-- C5 (witness): the amended theorem at two concrete one-entry arrays. -/
theorem c5_legacy_precedence_amended_witness :
    ([⟨"a", "equals", some "1"⟩] : List AdvFilter) ≠ [] ∧
    (parseSearchParamsModel (some (ParsedJson.arr [⟨"a", "equals", some "1"⟩]))
        (some (ParsedJson.arr [⟨"b", "equals", some "2"⟩])) = [⟨"a", "equals", some "1"⟩] ∧
      parseSearchParamsModel none (some (ParsedJson.arr [⟨"b", "equals", some "2"⟩]))
        = [⟨"b", "equals", some "2"⟩] ∧
      parseSearchParamsModel (some ParsedJson.malformed)
        (some (ParsedJson.arr [⟨"b", "equals", some "2"⟩])) = []) :=
  ⟨by decide,
   c5_legacy_precedence_amended [⟨"a", "equals", some "1"⟩] [⟨"b", "equals", some "2"⟩]
     (by decide)⟩

/-- A malformed, non-array, empty-array or all-blank-values filter
parameter is skipped by the copy loop of `fetchEvents`. -/
theorem copyEntry_skips_bad (parse : String → ParsedJson)
    (stringify : List AdvFilter → String) (urlEntries ps : List (String × String))
    (k s : String) (hk : k = "advanced_filters" ∨ k = "filters")
    (hbad : parse s = ParsedJson.malformed ∨ parse s = ParsedJson.nonArray ∨
      parse s = ParsedJson.arr [] ∨
      ∃ fs, parse s = ParsedJson.arr fs ∧ ∀ f ∈ fs, hasRealValue f = false) :
    copyEntry parse stringify urlEntries ps (k, s) = ps := by
  have hany : ∀ fs : List AdvFilter, (∀ f ∈ fs, hasRealValue f = false) →
      fs.any hasRealValue = false := by
    intro fs hall
    rw [List.any_eq_false]
    intro f hf
    simp [hall f hf]
  rcases hk with hk | hk
  · subst hk
    unfold copyEntry
    rw [if_neg (by simp), if_pos (by simp [filterParamKeys]), if_pos (by simp)]
    rcases hbad with hb | hb | hb | ⟨fs, hb, hall⟩
    · rw [hb]
    · rw [hb]
    · rw [hb]
      simp
    · rw [hb]
      simp [hany fs hall]
  · subst hk
    unfold copyEntry
    rw [if_neg (by simp), if_pos (by simp [filterParamKeys]), if_pos (by simp)]
    rcases hbad with hb | hb | hb | ⟨fs, hb, hall⟩
    · rw [hb]
    · rw [hb]
    · rw [hb]
      simp
    · rw [hb]
      simp [hany fs hall]

/-- C6: a filter parameter (`advanced_filters` or legacy `filters`) whose
value is malformed JSON, not an array, an empty array, or an array whose
every entry has a blank value, is treated as absent: the request built by
`fetchEvents` is exactly the request built with no filter parameter at
all, and no parse error escapes (the model is total). -/
theorem c6_bad_filter_param_ignored (parse : String → ParsedJson)
    (stringify : List AdvFilter → String) (page limit : Nat)
    (sortCol sortDir : Option String) (k s : String)
    (hk : k = "advanced_filters" ∨ k = "filters")
    (hbad : parse s = ParsedJson.malformed ∨ parse s = ParsedJson.nonArray ∨
      parse s = ParsedJson.arr [] ∨
      ∃ fs, parse s = ParsedJson.arr fs ∧ ∀ f ∈ fs, hasRealValue f = false) :
    buildFetchParams parse stringify false page limit sortCol sortDir [(k, s)] =
      buildFetchParams parse stringify false page limit sortCol sortDir [] := by
  unfold buildFetchParams
  have hrhs : hasFilterParams ([] : List (String × String)) = false := by decide
  have hlhs : hasFilterParams [(k, s)] = true := by
    rcases hk with hk | hk <;> subst hk <;>
      simp [hasFilterParams, hasKey, filterParamKeys]
  simp only [Bool.false_eq_true, if_false, hrhs, hlhs, not_false_iff, not_true,
    Bool.not_eq_true, ite_false, ite_true]
  simp only [List.foldl]
  exact copyEntry_skips_bad parse stringify [(k, s)] _ k s hk hbad

/-- C6 (witness): the theorem at a concrete malformed
`advanced_filters` value, with both sides evaluated. -/
theorem c6_bad_filter_param_ignored_witness :
    (("advanced_filters" : String) = "advanced_filters" ∨
      ("advanced_filters" : String) = "filters") ∧
    buildFetchParams (fun _ => ParsedJson.malformed) (fun _ => "") false 1 10
        (some "event_time") (some "desc") [("advanced_filters", "not json")] =
      buildFetchParams (fun _ => ParsedJson.malformed) (fun _ => "") false 1 10
        (some "event_time") (some "desc") [] :=
  ⟨Or.inl rfl,
   c6_bad_filter_param_ignored (fun _ => ParsedJson.malformed) (fun _ => "") 1 10
     (some "event_time") (some "desc") "advanced_filters" ("not json")
     (Or.inl rfl) (Or.inl rfl)⟩

/-- C7 (counterexample): on a machine whose local timezone is the
Brazilian one itself (`tz = -180`), picking 2024-03-01 as both ends
(digits of the day start: epoch ms 1709251200000) emits neither the
claimed `2024-03-01T00:00:00.000-03:00` start nor the claimed
`2024-03-01T23:59:59.999-03:00` end (it emits the 03:00:00.000 and
next-day 02:59:59.999 digits instead), and the emitted end differs from
the one a UTC machine (`tz = 0`) emits — the interval is not independent
of the machine's local timezone. -/
theorem c7_dateRange_counterexample :
    applyFilterFromParam (pickerMidnight (-180) 1709251200000) ≠
      OffsetStamp.mk 1709251200000 (-180) ∧
    applyFilterToParam (-180) (pickerMidnight (-180) 1709251200000) ≠
      OffsetStamp.mk 1709337599999 (-180) ∧
    applyFilterToParam (-180) (pickerMidnight (-180) 1709251200000) ≠
      applyFilterToParam 0 (pickerMidnight 0 1709251200000) := by decide

/-- C7 (amended): for a same-day range picked as local midnight of a day
whose wall-clock start is `d` (with `d` on a day boundary), the emitted
parameters carry the UTC digits of the machine-local instants relabelled
with `-03:00`: start digits `d - tz·60000` and end digits
`d + 86399999 - tz·60000` for a machine at offset `tz` minutes. The
interval therefore shifts with the machine's local timezone and equals
the claimed full Brazilian day exactly when `tz = 0` (a UTC machine), not
regardless of timezone. -/
theorem c7_dateRange_amended (tz d : Int) (h : d % 86400000 = 0) :
    applyFilterFromParam (pickerMidnight tz d) = OffsetStamp.mk (d - tz * 60000) (-180) ∧
    applyFilterToParam tz (pickerMidnight tz d) =
      OffsetStamp.mk (d + 86399999 - tz * 60000) (-180) := by
  refine ⟨rfl, ?_⟩
  unfold applyFilterToParam setHoursLocal pickerMidnight formatWithBrasiliaTz
  simp only [OffsetStamp.mk.injEq]
  exact ⟨by omega, trivial⟩

/-- C7 (witness): the amended theorem at the Brazilian-machine offset and
the 2024-03-01 day boundary. -/
theorem c7_dateRange_amended_witness :
    (1709251200000 : Int) % 86400000 = 0 ∧
    (applyFilterFromParam (pickerMidnight (-180) 1709251200000) =
        OffsetStamp.mk (1709251200000 - (-180) * 60000) (-180) ∧
      applyFilterToParam (-180) (pickerMidnight (-180) 1709251200000) =
        OffsetStamp.mk (1709251200000 + 86399999 - (-180) * 60000) (-180)) :=
  ⟨by decide, c7_dateRange_amended (-180) 1709251200000 (by decide)⟩

/-- A page that returns its full complement for an expected total of
2500: `min(pageSize, remaining)` records (used as the C8 witness's
fetcher; the record payload is the page number). -/
def fullComplementPage (p : Nat) : List Nat :=
  List.replicate (min exportPageSize (2500 - (p - 1) * exportPageSize)) p

/-- C8: for an expected total of 2500 and the fixed page size 1000, the
paginated export loop issues exactly `ceil(2500/1000) = 3` fetches, for
pages 1, 2, 3 in that order; the accumulated sequence is page 1's rows
followed by page 2's followed by page 3's, and when every page returns
its full complement the accumulated length is 2500. -/
theorem c8_paginated_export_2500 (α : Type) (fetchPage : Nat → List α)
    (h : ∀ p, 1 ≤ p → p ≤ 3 →
      (fetchPage p).length = min exportPageSize (2500 - (p - 1) * exportPageSize)) :
    exportTotalPages 2500 = 3 ∧
    fetchSchedule 2500 = [1, 2, 3] ∧
    accumulatePages fetchPage 2500 = fetchPage 1 ++ fetchPage 2 ++ fetchPage 3 ∧
    (accumulatePages fetchPage 2500).length = 2500 := by
  have h1 := h 1 (by decide) (by decide)
  have h2 := h 2 (by decide) (by decide)
  have h3 := h 3 (by decide) (by decide)
  have hacc : accumulatePages fetchPage 2500 = fetchPage 1 ++ fetchPage 2 ++ fetchPage 3 := by
    unfold accumulatePages
    rw [show fetchSchedule 2500 = [1, 2, 3] by decide]
    simp
  refine ⟨by decide, by decide, hacc, ?_⟩
  rw [hacc]
  simp only [List.length_append, h1, h2, h3]
  decide

/-- C8 (witness): the theorem at the full-complement fetcher. -/
theorem c8_paginated_export_2500_witness :
    (∀ p, 1 ≤ p → p ≤ 3 →
      (fullComplementPage p).length = min exportPageSize (2500 - (p - 1) * exportPageSize)) ∧
    (exportTotalPages 2500 = 3 ∧
      fetchSchedule 2500 = [1, 2, 3] ∧
      accumulatePages fullComplementPage 2500 =
        fullComplementPage 1 ++ fullComplementPage 2 ++ fullComplementPage 3 ∧
      (accumulatePages fullComplementPage 2500).length = 2500) :=
  ⟨fun _ _ _ => List.length_replicate _ _,
   c8_paginated_export_2500 Nat fullComplementPage
     (fun _ _ _ => List.length_replicate _ _)⟩

/-- C9 (counterexample): when the assembled set is empty while records
were expected, the job does not ask the user to confirm a partial export
— it aborts with a notice (`alert`), so the claim's "shorter than
expected implies a confirmation prompt" fails on the empty outcome. -/
theorem c9_export_counterexample :
    exportDecision ([] : List Nat) 5 = ExportDecision.abortEmpty ∧
    exportDecision ([] : List Nat) 5 ≠ ExportDecision.confirmPartial := by decide

/-- C9 (amended): an under-returning direct fetch switches to the
paginated strategy and restarts accumulation from empty — the result is
the paginated accumulation alone, independent of the discarded partial
rows — and a direct-fetch transport error takes the same paginated path;
after accumulation, a set shorter than the expected total never proceeds
silently: it triggers the partial-export confirmation when non-empty,
and an abort notice when empty. -/
theorem c9_export_fallback_amended (α : Type) (fetchPage : Nat → List α) (total : Nat)
    (evs evs' acc : List α) (h1 : evs.length < total) (h2 : evs'.length < total)
    (hacc : acc.length < total) :
    exportFetchPhase (Except.ok evs) fetchPage total = (accumulatePages fetchPage total, true) ∧
    exportFetchPhase (Except.ok evs') fetchPage total
      = exportFetchPhase (Except.ok evs) fetchPage total ∧
    exportFetchPhase (Except.error ()) fetchPage total = (accumulatePages fetchPage total, true) ∧
    exportDecision acc total ≠ ExportDecision.proceed ∧
    (acc ≠ [] → exportDecision acc total = ExportDecision.confirmPartial) ∧
    exportDecision ([] : List α) total = ExportDecision.abortEmpty := by
  refine ⟨?_, ?_, rfl, ?_, ?_, ?_⟩
  · simp [exportFetchPhase, h1]
  · simp [exportFetchPhase, h1, h2]
  · unfold exportDecision
    split
    · decide
    · decide
  · intro hne
    unfold exportDecision
    rw [if_neg (by simpa using hne), if_pos hacc]
  · simp [exportDecision]

/-- C9 (witness): the amended theorem at a concrete under-returning
direct fetch and a concrete short accumulation. -/
theorem c9_export_fallback_amended_witness :
    exportFetchPhase (Except.ok [1]) (fun p : Nat => [p]) 3
      = (accumulatePages (fun p : Nat => [p]) 3, true) ∧
    exportDecision ([9] : List Nat) 3 = ExportDecision.confirmPartial ∧
    exportDecision ([] : List Nat) 3 = ExportDecision.abortEmpty := by
  have h := c9_export_fallback_amended Nat (fun p => [p]) 3 [1] [2] [9]
    (by decide) (by decide) (by decide)
  exact ⟨h.1, h.2.2.2.2.1 (by decide), h.2.2.2.2.2⟩

/-- Scanning the escaped interior of a field recovers the raw value and
leaves the rest untouched, provided the rest does not begin with a
quote. -/
theorem scanQuoted_escape : ∀ (v rest : List Char), rest.head? ≠ some '\"' →
    scanQuoted (escQuotes v ++ '\"' :: rest) = some (v, rest) := by
  intro v
  induction v with
  | nil =>
      intro rest h
      cases rest with
      | nil => rfl
      | cons c2 cs2 =>
          have hc : c2 ≠ '\"' := by
            intro hc
            subst hc
            simp at h
          simp [escQuotes, scanQuoted, hc]
  | cons c cs ih =>
      intro rest h
      by_cases hc : c = '\"'
      · subst hc
        simp [escQuotes, scanQuoted, ih rest h]
      · have hstep : scanQuoted (c :: (escQuotes cs ++ '\"' :: rest)) =
            (scanQuoted (escQuotes cs ++ '\"' :: rest)).map (fun r => (c :: r.1, r.2)) := by
          conv_lhs => unfold scanQuoted
          rw [if_neg hc]
        have hout : escQuotes (c :: cs) ++ '\"' :: rest
            = c :: (escQuotes cs ++ '\"' :: rest) := by
          simp [escQuotes, hc]
        rw [hout, hstep, ih rest h]
        rfl

/-- Parsing one emitted field recovers the raw value. -/
theorem parseQuotedField_escape (v rest : List Char) (h : rest.head? ≠ some '\"') :
    parseQuotedField (csvEscapeChars v ++ rest) = some (v, rest) := by
  have hshape : csvEscapeChars v ++ rest = '\"' :: (escQuotes v ++ '\"' :: rest) := by
    simp [csvEscapeChars]
  rw [hshape]
  exact scanQuoted_escape v rest h

/-- One unfolding step of the fuelled row parser. -/
theorem parseRowFields_succ (fuel : Nat) (cs : List Char) :
    parseRowFields (fuel + 1) cs =
      match parseQuotedField cs with
      | none => none
      | some (v, rest) =>
          match rest with
          | [] => some [v]
          | ',' :: rest' => (parseRowFields fuel rest').map (fun vs => v :: vs)
          | _ => none := rfl

/-- Parsing a comma join of emitted fields recovers the raw values. -/
theorem parseRowFields_join : ∀ (vs : List (List Char)) (fuel : Nat), vs ≠ [] →
    vs.length ≤ fuel →
    parseRowFields fuel (joinCharsComma (vs.map csvEscapeChars)) = some vs := by
  intro vs
  induction vs with
  | nil => intro fuel h _; exact absurd rfl h
  | cons v ws ih =>
      intro fuel _ hfuel
      cases fuel with
      | zero => simp at hfuel
      | succ f =>
          cases ws with
          | nil =>
              have hp : parseQuotedField (csvEscapeChars v) = some (v, []) := by
                have := parseQuotedField_escape v [] (by simp)
                simpa using this
              simp [joinCharsComma, parseRowFields, hp]
          | cons w ws' =>
              have hp := parseQuotedField_escape v
                (',' :: joinCharsComma ((w :: ws').map csvEscapeChars)) (by simp)
              have hrec := ih f (by simp) (by simpa using hfuel)
              show parseRowFields (f + 1)
                  (csvEscapeChars v ++ ',' :: joinCharsComma ((w :: ws').map csvEscapeChars))
                = some (v :: w :: ws')
              rw [parseRowFields_succ, hp]
              show (parseRowFields f (joinCharsComma ((w :: ws').map csvEscapeChars))).map
                  (fun vs => v :: vs) = some (v :: w :: ws')
              rw [hrec]
              rfl

/-- The character sequence of the comma-joined row. -/
theorem joinComma_data : ∀ (cells : List String),
    (joinComma cells).data = joinCharsComma (cells.map String.data) := by
  intro cells
  induction cells with
  | nil => rfl
  | cons v vs ih =>
      cases vs with
      | nil => rfl
      | cons w ws =>
          simp only [joinComma, joinCharsComma, List.map_cons, String.data_append, ih]
          simp

/-- C10 (counterexample): a `null` record value is rendered as the
four-character string `null`, not as the claimed `-` — only a missing
(`undefined`) value yields the dash. The flat and the nested accessor
behave alike (the dash written inside the nested loop's break is
overwritten by the assignment after the loop). -/
theorem c10_null_value_counterexample :
    cellRaw id (JSVal.obj [("cwr", JSVal.jsNull)]) ⟨"CWR", ["cwr"]⟩ = "null" ∧
    cellRaw id (JSVal.obj [("user", JSVal.jsNull)]) ⟨"Nome", ["user", "fullname"]⟩ = "null" ∧
    cellRaw id (JSVal.obj [("cwr", JSVal.jsNull)]) ⟨"CWR", ["cwr"]⟩ ≠ "-" := by
  refine ⟨rfl, rfl, ?_⟩
  decide

/-- C10 (amended): every emitted field is the raw cell text enclosed in
double quotes with embedded quotes doubled, a data row has exactly one
field per visible column, and the whole row parses back to exactly the
per-column raw texts for arbitrary record content (so the output is
unambiguous CSV); a missing (`undefined`) value renders as `-`, but a
`null` value renders as the string `null`, not `-`. -/
theorem c10_csv_row_amended (dateFmt : String → String) (cols : List CsvColumn)
    (event : JSVal) (hne : cols ≠ []) :
    (csvRowCells dateFmt cols event).length = cols.length ∧
    parseRowFields cols.length (csvRow dateFmt cols event).data
      = some ((cols.map (cellRaw dateFmt event)).map String.data) ∧
    renderValue JSVal.undefined = "-" := by
  refine ⟨by simp [csvRowCells], ?_, rfl⟩
  unfold csvRow
  rw [joinComma_data]
  have hmap : (csvRowCells dateFmt cols event).map String.data
      = ((cols.map (cellRaw dateFmt event)).map String.data).map csvEscapeChars := by
    simp [csvRowCells, csvEscape, Function.comp]
  rw [hmap]
  apply parseRowFields_join
  · simpa using hne
  · simp

/-- C10 (witness): the amended theorem at two concrete columns (one
nested accessor) and a record whose value contains quotes and a comma. -/
theorem c10_csv_row_amended_witness :
    ([⟨"Nome", ["user", "fullname"]⟩, ⟨"CWR", ["cwr"]⟩] : List CsvColumn) ≠ [] ∧
    ((csvRowCells id [⟨"Nome", ["user", "fullname"]⟩, ⟨"CWR", ["cwr"]⟩]
        (JSVal.obj [("user", JSVal.obj [("fullname", JSVal.prim "Ana \"A\", B")])])).length
      = 2 ∧
      parseRowFields 2
        (csvRow id [⟨"Nome", ["user", "fullname"]⟩, ⟨"CWR", ["cwr"]⟩]
          (JSVal.obj [("user", JSVal.obj [("fullname", JSVal.prim "Ana \"A\", B")])])).data
        = some [("Ana \"A\", B").data, ("-").data] ∧
      renderValue JSVal.undefined = "-") := by
  have h := c10_csv_row_amended id [⟨"Nome", ["user", "fullname"]⟩, ⟨"CWR", ["cwr"]⟩]
    (JSVal.obj [("user", JSVal.obj [("fullname", JSVal.prim "Ana \"A\", B")])])
    (by decide)
  refine ⟨by decide, h.1, ?_, h.2.2⟩
  exact h.2.1.trans (by rfl)
